import Mathlib

/-!
Verification of the gcs-inventory-loader CLI dispatch layer
(src/gcs_inventory_loader/__init__.py) and, where the core modules are not
part of the sources, of models of the core built from the design document.

The dispatch layer is embedded as pure functions from a CLI invocation to a
final configuration state and an ordered trace of observable effects; the
process-wide configuration singleton of the config module is threaded as
explicit state.
-/

namespace GcsInventoryLoader

/-- Configuration state: a mapping from a (section, key) pair to an optional
string value, mirroring the ConfigParser object held by the config module. -/
def Config : Type := String → String → Option String

/-- Mirrors ConfigParser.set(section, key, value): overwrite one key. -/
def Config.set (c : Config) (sec key v : String) : Config :=
  fun s k => if s = sec ∧ k = key then some v else c s k

/-- Abstraction of the filesystem of configuration files: set_config(path)
parses the file at the given path, yielding the configuration fs path. -/
def ConfigSource : Type := String → Config

/-- The process-wide mutable state of the config module: the shared
configuration singleton assigned by set_config and returned by get_config. -/
structure PState where
  config : Config

/-- Group-level CLI options, stored in context.obj by main (lines 38-54). -/
structure GroupOpts where
  config_file : String
  log_level : Option String

/-- Options and arguments of the load subcommand (lines 70-111). -/
structure LoadOpts where
  gcs_project : Option String
  bq_project : Option String
  dataset_name : Option String
  inventory_table : Option String
  buckets : List String
  pfx : Option String
  replace : Bool

/-- Output channels used by print(..., file=...). -/
inductive Channel where
  | stdout
  | stderr
deriving DecidableEq

/-- Messages printed by the dispatch layer. -/
inductive Msg where
  | configParsed
  | configOverridden
deriving DecidableEq

/-- Observable effects of one CLI invocation, in program order. The three
core entry points appear as terminal effects carrying exactly the arguments
the dispatch layer passes to them. -/
inductive Effect where
  | parseConfig (file : String)
  | emit (ch : Channel) (m : Msg)
  | setLogLevel (lvl : Option String)
  | configSet (sec key v : String)
  | coreLoad (buckets : List String) (pfx : Option String) (replace : Bool)
  | coreCat (buckets : List String) (pfx : Option String)
  | coreListen
deriving DecidableEq

/-- Python truthiness of an optional string: None and the empty string are
falsy, every other string is truthy. -/
def truthy : Option String → Bool
  | none => false
  | some s => !(s == "")

/-- init (lines 57-67): set_config(config_file) re-parses the configuration
file and re-assigns the singleton, the parsed configuration is printed to
stderr, and the program log level is set. The prior state is discarded. -/
def initRun (fs : ConfigSource) (g : GroupOpts) (_st : PState) :
    PState × List Effect :=
  ({ config := fs g.config_file },
   [Effect.parseConfig g.config_file,
    Effect.emit Channel.stderr Msg.configParsed,
    Effect.setLogLevel g.log_level])

/-- The override block of load (lines 129-149): if any of the four override
options is truthy, get_config() fetches the shared configuration and each
truthy option overwrites its key on it, then the overridden configuration is
printed to stderr. -/
def overrideBlock (o : LoadOpts) (st : PState) : PState × List Effect :=
  if truthy o.gcs_project || truthy o.bq_project || truthy o.dataset_name
      || truthy o.inventory_table then
    let c0 := st.config
    let c1 := if truthy o.gcs_project then
        c0.set "GCP" "GCS_PROJECT" (o.gcs_project.getD "") else c0
    let t1 : List Effect := if truthy o.gcs_project then
        [Effect.configSet "GCP" "GCS_PROJECT" (o.gcs_project.getD "")] else []
    let c2 := if truthy o.bq_project then
        c1.set "BIGQUERY" "JOB_PROJECT" (o.bq_project.getD "") else c1
    let t2 : List Effect := if truthy o.bq_project then
        [Effect.configSet "BIGQUERY" "JOB_PROJECT" (o.bq_project.getD "")] else []
    let c3 := if truthy o.dataset_name then
        c2.set "BIGQUERY" "DATASET_NAME" (o.dataset_name.getD "") else c2
    let t3 : List Effect := if truthy o.dataset_name then
        [Effect.configSet "BIGQUERY" "DATASET_NAME" (o.dataset_name.getD "")] else []
    let c4 := if truthy o.inventory_table then
        c3.set "BIGQUERY" "INVENTORY_TABLE" (o.inventory_table.getD "") else c3
    let t4 : List Effect := if truthy o.inventory_table then
        [Effect.configSet "BIGQUERY" "INVENTORY_TABLE" (o.inventory_table.getD "")] else []
    ({ config := c4 },
     t1 ++ t2 ++ t3 ++ t4 ++ [Effect.emit Channel.stderr Msg.configOverridden])
  else (st, [])

/-- The load subcommand body (lines 104-150): init(**context.obj), then the
override block, then load_command(buckets, prefix, replace) with its
arguments passed explicitly. -/
def runLoadCLI (fs : ConfigSource) (g : GroupOpts) (o : LoadOpts) (st : PState) :
    PState × List Effect :=
  let s1 := initRun fs g st
  let s2 := overrideBlock o s1.1
  (s2.1, s1.2 ++ s2.2 ++ [Effect.coreLoad o.buckets o.pfx o.replace])

/-- The cat subcommand body (lines 163-174): init(**context.obj), then
cat_command(buckets, prefix). -/
def runCatCLI (fs : ConfigSource) (g : GroupOpts) (buckets : List String)
    (pfx : Option String) (st : PState) : PState × List Effect :=
  let s1 := initRun fs g st
  (s1.1, s1.2 ++ [Effect.coreCat buckets pfx])

/-- The listen subcommand body (lines 179-188): init(**context.obj), then
listen_command() with no arguments. -/
def runListenCLI (fs : ConfigSource) (g : GroupOpts) (st : PState) :
    PState × List Effect :=
  let s1 := initRun fs g st
  (s1.1, s1.2 ++ [Effect.coreListen])

/-- Recognizer for the three core-call effects. -/
def isCoreCall : Effect → Bool
  | Effect.coreLoad _ _ _ => true
  | Effect.coreCat _ _ => true
  | Effect.coreListen => true
  | _ => false

/-- Recognizer for a core call that carries a set replace flag. -/
def carriesReplace : Effect → Bool
  | Effect.coreLoad _ _ r => r
  | _ => false

/-- Recognizer for a mutation of one key of the shared configuration. -/
def isConfigSet : Effect → Bool
  | Effect.configSet _ _ _ => true
  | _ => false

/-- Recognizer for output emitted on stdout. -/
def isStdoutEmit : Effect → Bool
  | Effect.emit Channel.stdout _ => true
  | _ => false

/-- One inventory Object Record, keyed by (bucket, name, generation); a set
tombstone flag models a non-null time_deleted. -/
structure Row where
  bucket : String
  name : String
  generation : Nat
  tombstone : Bool
deriving DecidableEq

/-- Modelled from the spec: the Object Lister collaborator of section 6 — for
a bucket and an optional key prefix it yields the object records under that
prefix. The concrete GCS client is not part of the sources. -/
def Lister : Type := String → Option String → List Row

/-- Equality of two rows on the upsert key (bucket, name, generation). -/
def sameKey (a b : Row) : Bool :=
  a.bucket == b.bucket && a.name == b.name && a.generation == b.generation

/-- Whether a row with the key of r is already present in the table. -/
def keyMem (t : List Row) (r : Row) : Bool := t.any (fun x => sameKey x r)

/-- Modelled from the spec: the Table Sink upsert of sections 4.2 and 6 — a
record whose (bucket, name, generation) key is already present is a no-op,
otherwise the record is appended. The sink module is not under src/. -/
def sinkWrite (t : List Row) (r : Row) : List Row :=
  if keyMem t r then t else t ++ [r]

/-- Number of rows of the table sharing the key of r. -/
def countKey (t : List Row) (r : Row) : Nat :=
  (t.filter (fun x => sameKey x r)).length

/-- Effects of a core run on the table store and on stdout. -/
inductive RunEffect where
  | truncate
  | writeRow (r : Row)
  | outRecord (s : String)
deriving DecidableEq

/-- Recognizer for a table truncation. -/
def isTruncate : RunEffect → Bool
  | RunEffect.truncate => true
  | _ => false

/-- Recognizer for a table write. -/
def isWriteRow : RunEffect → Bool
  | RunEffect.writeRow _ => true
  | _ => false

/-- Semantics of one run effect on the table store. -/
def applyRun (t : List Row) : RunEffect → List Row
  | RunEffect.truncate => []
  | RunEffect.writeRow r => sinkWrite t r
  | RunEffect.outRecord _ => t

/-- Table contents after a sequence of run effects. -/
def runTable (t : List Row) (effs : List RunEffect) : List Row :=
  effs.foldl applyRun t

/-- Modelled from the spec: the bucket fan-out of section 4.3 — an empty
bucket list means all buckets visible to the configured project. -/
def expandBuckets (allBuckets buckets : List String) : List String :=
  if buckets.isEmpty then allBuckets else buckets

/-- All records crawled in one run, in bucket order. -/
def crawlAll (lister : Lister) (allBuckets buckets : List String)
    (pfx : Option String) : List Row :=
  (expandBuckets allBuckets buckets).flatMap (fun b => lister b pfx)

/-- Modelled from the spec: load_command, the Bulk Loader core of section
4.3, which is not under src/ — when replace is set the destination table is
truncated once, before any record of any bucket is written; then the crawled
records of every requested bucket are fed to the sink. -/
def load_command_effects (lister : Lister) (allBuckets buckets : List String)
    (pfx : Option String) (rep : Bool) : List RunEffect :=
  (if rep then [RunEffect.truncate] else []) ++
    (crawlAll lister allBuckets buckets pfx).map RunEffect.writeRow

/-- Serialization of one record for the cat output stream. -/
def serializeRow (r : Row) : String :=
  r.bucket ++ "/" ++ r.name ++ "#" ++ toString r.generation

/-- Modelled from the spec: cat_command, the runCat core of section 6, which
is not under src/ — a read-only streaming dump that serializes every crawled
record to stdout and performs no table operation. -/
def cat_command_effects (lister : Lister) (allBuckets buckets : List String)
    (pfx : Option String) : List RunEffect :=
  (crawlAll lister allBuckets buckets pfx).map
    (fun r => RunEffect.outRecord (serializeRow r))

/-- Modelled from the spec: listen_command, the Change Listener core of
section 4.4, which is not under src/ — derived records are forwarded to the
sink in append mode only. -/
def listen_command_effects (events : List Row) : List RunEffect :=
  events.map RunEffect.writeRow

/-- The stdout record stream of a run: its outRecord payloads in order. -/
def outputs (effs : List RunEffect) : List String :=
  effs.filterMap fun e =>
    match e with
    | RunEffect.outRecord s => some s
    | _ => none

/-! Helper lemmas about the dispatch traces. -/

theorem overrideBlock_trace_cases (o : LoadOpts) (st : PState) :
    ∀ e ∈ (overrideBlock o st).2,
      isConfigSet e = true ∨ e = Effect.emit Channel.stderr Msg.configOverridden := by
  intro e he
  by_cases h1 : truthy o.gcs_project = true <;>
  by_cases h2 : truthy o.bq_project = true <;>
  by_cases h3 : truthy o.dataset_name = true <;>
  by_cases h4 : truthy o.inventory_table = true <;>
  simp only [overrideBlock, h1, h2, h3, h4, if_true, if_false, Bool.true_or, Bool.or_true,
    Bool.false_or, Bool.or_false, Bool.or_self, ite_true, ite_false,
    Bool.false_eq_true, not_false_eq_true, List.nil_append, List.append_nil,
    List.mem_append, List.mem_singleton, List.mem_cons, List.not_mem_nil,
    or_false, false_or] at he <;>
  (repeat' rcases he with he | he) <;> simp [isConfigSet]

theorem overrideBlock_filter_core (o : LoadOpts) (st : PState) :
    (overrideBlock o st).2.filter isCoreCall = [] := by
  rw [List.filter_eq_nil_iff]
  intro e he
  rcases overrideBlock_trace_cases o st e he with h | h
  · cases e <;> simp_all [isConfigSet, isCoreCall]
  · subst h; simp [isCoreCall]

theorem overrideBlock_no_stdout (o : LoadOpts) (st : PState) :
    ∀ e ∈ (overrideBlock o st).2, isStdoutEmit e = false := by
  intro e he
  rcases overrideBlock_trace_cases o st e he with h | h
  · cases e <;> simp_all [isConfigSet, isStdoutEmit]
  · subst h; simp [isStdoutEmit]

theorem overrideBlock_no_replace (o : LoadOpts) (st : PState) :
    ∀ e ∈ (overrideBlock o st).2, carriesReplace e = false := by
  intro e he
  rcases overrideBlock_trace_cases o st e he with h | h
  · cases e <;> simp_all [isConfigSet, carriesReplace]
  · subst h; simp [carriesReplace]

/-! Claim theorems. -/

/-- C1: every CLI invocation dispatches to exactly one core operation, with
its arguments passed explicitly — load invokes load_command(buckets, prefix,
replace), cat invokes cat_command(buckets, prefix), listen invokes
listen_command() — and the core-call arguments are independent of the shared
context object g and of the prior state st, as the right-hand sides mention
neither. -/
theorem dispatch_invokes_one_core (fs : ConfigSource) (g : GroupOpts)
    (o : LoadOpts) (buckets : List String) (pfx : Option String) (st : PState) :
    (runLoadCLI fs g o st).2.filter isCoreCall
        = [Effect.coreLoad o.buckets o.pfx o.replace] ∧
    (runCatCLI fs g buckets pfx st).2.filter isCoreCall
        = [Effect.coreCat buckets pfx] ∧
    (runListenCLI fs g st).2.filter isCoreCall = [Effect.coreListen] := by
  refine ⟨?_, ?_, ?_⟩
  · show ((initRun fs g st).2 ++ (overrideBlock o (initRun fs g st).1).2
        ++ [Effect.coreLoad o.buckets o.pfx o.replace]).filter isCoreCall = _
    rw [List.filter_append, List.filter_append, overrideBlock_filter_core]
    simp [initRun, isCoreCall]
  · simp [runCatCLI, initRun, isCoreCall]
  · simp [runListenCLI, initRun, isCoreCall]

/-- C3: replace is reachable only from the bulk path — the listen (and cat)
dispatch traces carry no replace flag at all, listen invokes listen_command()
alone, the listener core produces no truncation, and the bulk core truncates
exactly when its replace argument is true. -/
theorem replace_only_from_load (fs : ConfigSource) (g : GroupOpts)
    (buckets : List String) (pfx : Option String) (st : PState)
    (lister : Lister) (allB : List String) (events : List Row) :
    (runListenCLI fs g st).2.all (fun e => !(carriesReplace e)) = true ∧
    (runCatCLI fs g buckets pfx st).2.all (fun e => !(carriesReplace e)) = true ∧
    (runListenCLI fs g st).2.filter isCoreCall = [Effect.coreListen] ∧
    (listen_command_effects events).all (fun e => !(isTruncate e)) = true ∧
    (load_command_effects lister allB buckets pfx true).any isTruncate = true ∧
    (load_command_effects lister allB buckets pfx false).any isTruncate = false := by
  refine ⟨?_, ?_, ?_, ?_, ?_, ?_⟩
  · simp [runListenCLI, initRun, carriesReplace]
  · simp [runCatCLI, initRun, carriesReplace]
  · simp [runListenCLI, initRun, isCoreCall]
  · simp [listen_command_effects, List.all_map, Function.comp, isTruncate]
  · simp [load_command_effects, isTruncate]
  · simp [load_command_effects, List.any_map, Function.comp, isTruncate]

/-- C6: the load dispatcher forwards the possibly-empty bucket list unchanged
to load_command, and in the (spec-modelled) core an empty list expands to all
buckets visible to the configured project, so all of them are crawled. -/
theorem load_forwards_bucket_list (fs : ConfigSource) (g : GroupOpts)
    (o : LoadOpts) (st : PState) (lister : Lister) (allB : List String)
    (pfx : Option String) :
    (runLoadCLI fs g o st).2.getLast?
        = some (Effect.coreLoad o.buckets o.pfx o.replace) ∧
    expandBuckets allB ([] : List String) = allB ∧
    crawlAll lister allB [] pfx = allB.flatMap (fun b => lister b pfx) := by
  refine ⟨?_, rfl, rfl⟩
  show ((initRun fs g st).2 ++ (overrideBlock o (initRun fs g st).1).2
      ++ [Effect.coreLoad o.buckets o.pfx o.replace]).getLast? = _
  rw [List.getLast?_concat]

/-- C9: for each of the three commands, initialization — parsing the file
named by the group-level config_file option and setting the log level — is
performed before the core operation is invoked: the first three effects of
every trace are the init effects, the first of them parses the configuration
file, and the core call is the final effect. -/
theorem init_precedes_core (fs : ConfigSource) (g : GroupOpts) (o : LoadOpts)
    (buckets : List String) (pfx : Option String) (st : PState) :
    (runLoadCLI fs g o st).2.take 3 = (initRun fs g st).2 ∧
    (runLoadCLI fs g o st).2.getLast?
        = some (Effect.coreLoad o.buckets o.pfx o.replace) ∧
    (runCatCLI fs g buckets pfx st).2
        = (initRun fs g st).2 ++ [Effect.coreCat buckets pfx] ∧
    (runListenCLI fs g st).2 = (initRun fs g st).2 ++ [Effect.coreListen] ∧
    (initRun fs g st).2.head? = some (Effect.parseConfig g.config_file) := by
  refine ⟨rfl, ?_, rfl, rfl, rfl⟩
  show ((initRun fs g st).2 ++ (overrideBlock o (initRun fs g st).1).2
      ++ [Effect.coreLoad o.buckets o.pfx o.replace]).getLast? = _
  rw [List.getLast?_concat]

/-- C10: the dispatch layer writes its configuration dumps only to stderr —
no trace of any of the three commands contains a stdout emission. -/
theorem dispatch_writes_only_stderr (fs : ConfigSource) (g : GroupOpts)
    (o : LoadOpts) (buckets : List String) (pfx : Option String) (st : PState) :
    (runLoadCLI fs g o st).2.all (fun e => !(isStdoutEmit e)) = true ∧
    (runCatCLI fs g buckets pfx st).2.all (fun e => !(isStdoutEmit e)) = true ∧
    (runListenCLI fs g st).2.all (fun e => !(isStdoutEmit e)) = true := by
  refine ⟨?_, ?_, ?_⟩
  · show ((initRun fs g st).2 ++ (overrideBlock o (initRun fs g st).1).2
        ++ [Effect.coreLoad o.buckets o.pfx o.replace]).all
        (fun e => !(isStdoutEmit e)) = true
    rw [List.all_append, List.all_append]
    have hov : (overrideBlock o (initRun fs g st).1).2.all
        (fun e => !(isStdoutEmit e)) = true :=
      List.all_eq_true.mpr fun e he => by
        rw [overrideBlock_no_stdout o _ e he]; rfl
    rw [hov]
    simp [initRun, isStdoutEmit]
  · simp [runCatCLI, initRun, isStdoutEmit]
  · simp [runListenCLI, initRun, isStdoutEmit]

/-! Helper lemmas about the sink and the table semantics. -/

theorem sameKey_refl (r : Row) : sameKey r r = true := by
  simp [sameKey]

theorem sinkWrite_of_keyMem {t : List Row} {r : Row} (h : keyMem t r = true) :
    sinkWrite t r = t := by
  unfold sinkWrite
  rw [if_pos h]

theorem keyMem_sinkWrite_self (t : List Row) (r : Row) :
    keyMem (sinkWrite t r) r = true := by
  unfold sinkWrite
  split
  · assumption
  · exact List.any_eq_true.mpr ⟨r, by simp, sameKey_refl r⟩

theorem countKey_pos_of_keyMem {t : List Row} {r : Row} (h : keyMem t r = true) :
    0 < countKey t r := by
  rcases List.any_eq_true.mp h with ⟨x, hx, hsk⟩
  exact List.length_pos.mpr (List.ne_nil_of_mem (List.mem_filter.mpr ⟨hx, hsk⟩))

theorem countKey_eq_zero_of_not_keyMem {t : List Row} {r : Row}
    (h : keyMem t r = false) : countKey t r = 0 := by
  unfold countKey
  rw [List.length_eq_zero, List.filter_eq_nil_iff]
  intro x hx hsk
  exact absurd (List.any_eq_true.mpr ⟨x, hx, hsk⟩) (by simp [keyMem] at h ⊢; exact h)

theorem mem_sinkWrite {r x : Row} {t : List Row} (h : r ∈ sinkWrite t x) :
    r ∈ t ∨ r = x := by
  unfold sinkWrite at h
  split at h
  · exact Or.inl h
  · rcases List.mem_append.mp h with h1 | h2
    · exact Or.inl h1
    · exact Or.inr (List.mem_singleton.mp h2)

theorem runTable_writes_mem (rs : List Row) :
    ∀ t r, r ∈ runTable t (rs.map RunEffect.writeRow) → r ∈ t ∨ r ∈ rs := by
  induction rs with
  | nil =>
    intro t r h
    exact Or.inl h
  | cons x xs ih =>
    intro t r h
    have h2 : r ∈ sinkWrite t x ∨ r ∈ xs := ih (sinkWrite t x) r h
    rcases h2 with h3 | h4
    · rcases mem_sinkWrite h3 with h5 | h6
      · exact Or.inl h5
      · exact Or.inr (h6 ▸ List.mem_cons_self x xs)
    · exact Or.inr (List.mem_cons_of_mem x h4)

theorem runTable_outRecords (rs : List Row) :
    ∀ t : List Row,
      runTable t (rs.map (fun r => RunEffect.outRecord (serializeRow r))) = t := by
  induction rs with
  | nil => intro t; rfl
  | cons x xs ih => intro t; exact ih t

theorem outputs_outRecords (rs : List Row) :
    outputs (rs.map (fun r => RunEffect.outRecord (serializeRow r)))
      = rs.map serializeRow := by
  induction rs with
  | nil => rfl
  | cons x xs ih =>
    simp only [List.map_cons, outputs, List.filterMap_cons] at ih ⊢
    rw [ih]

/-- C4: a bulk-load run with replace set truncates the destination table
exactly once, as the very first effect, before any record of any bucket is
written; the final table is independent of the pre-existing rows, and every
row of it comes from the crawled records of the current run. -/
theorem bulk_replace_semantics (lister : Lister) (allB buckets : List String)
    (pfx : Option String) (t0 t1 : List Row) :
    ((load_command_effects lister allB buckets pfx true).filter isTruncate).length
        = 1 ∧
    (load_command_effects lister allB buckets pfx true).head?
        = some RunEffect.truncate ∧
    runTable t0 (load_command_effects lister allB buckets pfx true)
        = runTable t1 (load_command_effects lister allB buckets pfx true) ∧
    (∀ r, r ∈ runTable t0 (load_command_effects lister allB buckets pfx true) →
      r ∈ crawlAll lister allB buckets pfx) := by
  refine ⟨?_, rfl, rfl, ?_⟩
  · have hnil : ((crawlAll lister allB buckets pfx).map RunEffect.writeRow).filter
        isTruncate = [] := by
      rw [List.filter_eq_nil_iff]
      intro a ha
      rcases List.mem_map.mp ha with ⟨r, _, rfl⟩
      simp [isTruncate]
    simp [load_command_effects, List.filter_cons, isTruncate, hnil]
  · intro r h
    have h2 : r ∈ runTable []
        ((crawlAll lister allB buckets pfx).map RunEffect.writeRow) := h
    rcases runTable_writes_mem _ [] r h2 with h3 | h4
    · exact absurd h3 (List.not_mem_nil r)
    · exact h4

/-- Sample records and collaborators used to witness the core claims. -/
def rowA : Row := { bucket := "b1", name := "a", generation := 1, tombstone := false }

def rowOld : Row := { bucket := "old", name := "x", generation := 7, tombstone := false }

def listerC : Lister := fun b _ => if b = "b1" then [rowA] else []

theorem bulk_replace_semantics_witness :
    runTable [rowOld] (load_command_effects listerC ["p1"] ["b1"] none true)
        = runTable [] (load_command_effects listerC ["p1"] ["b1"] none true) ∧
    rowA ∈ crawlAll listerC ["p1"] ["b1"] none := by
  have h := bulk_replace_semantics listerC ["p1"] ["b1"] none [rowOld] []
  exact ⟨h.2.2.1, h.2.2.2 rowA (by decide)⟩

/-- C5: the cat operation is read-only with respect to the table store — its
(spec-modelled) core leaves any table unchanged, performs no truncation and
no write, streams exactly the serialized crawled records, and its dispatch
trace mutates no configuration key. -/
theorem cat_is_read_only (lister : Lister) (allB buckets : List String)
    (pfx : Option String) (t : List Row) (fs : ConfigSource) (g : GroupOpts)
    (st : PState) :
    runTable t (cat_command_effects lister allB buckets pfx) = t ∧
    (cat_command_effects lister allB buckets pfx).all
        (fun e => !(isTruncate e) && !(isWriteRow e)) = true ∧
    outputs (cat_command_effects lister allB buckets pfx)
        = (crawlAll lister allB buckets pfx).map serializeRow ∧
    (runCatCLI fs g buckets pfx st).2.all (fun e => !(isConfigSet e)) = true := by
  refine ⟨runTable_outRecords _ t, ?_, ?_, ?_⟩
  · simp [cat_command_effects, List.all_map, Function.comp, isTruncate, isWriteRow]
  · exact outputs_outRecords _
  · simp [runCatCLI, initRun, isConfigSet]

/-- C7: sink writes are idempotent on the (bucket, name, generation) key —
writing the same record twice equals writing it once, after a write exactly
max(previous count, 1) rows carry the key, and a write whose key is already
present leaves the table unchanged rather than failing. -/
theorem sink_upsert_idempotent (t : List Row) (r : Row) :
    sinkWrite (sinkWrite t r) r = sinkWrite t r ∧
    countKey (sinkWrite t r) r = max (countKey t r) 1 ∧
    (keyMem t r = true → sinkWrite t r = t) := by
  refine ⟨sinkWrite_of_keyMem (keyMem_sinkWrite_self t r), ?_,
    fun h => sinkWrite_of_keyMem h⟩
  by_cases hk : keyMem t r = true
  · rw [sinkWrite_of_keyMem hk]
    have hpos := countKey_pos_of_keyMem hk
    omega
  · have hk' : keyMem t r = false := by simpa using hk
    have h0 : countKey t r = 0 := countKey_eq_zero_of_not_keyMem hk'
    have happ : sinkWrite t r = t ++ [r] := by
      unfold sinkWrite
      rw [if_neg (by simp [hk'])]
    rw [happ]
    unfold countKey at h0 ⊢
    rw [List.filter_append, List.length_append, h0]
    simp [sameKey_refl]

theorem sink_upsert_idempotent_witness :
    keyMem [rowA] rowA = true ∧ sinkWrite [rowA] rowA = [rowA] := by
  exact ⟨by decide, (sink_upsert_idempotent [rowA] rowA).2.2 (by decide)⟩

/-! Concrete fixtures for the configuration claims. -/

/-- A configuration source whose every file holds GCP.GCS_PROJECT = "old"
and nothing else. -/
def fsC : ConfigSource := fun _ => fun s k =>
  if s = "GCP" ∧ k = "GCS_PROJECT" then some "old" else none

def gD : GroupOpts := { config_file := "./default.cfg", log_level := none }

def stEmpty : PState := { config := fun _ _ => none }

def oNew : LoadOpts :=
  { gcs_project := some "newproj", bq_project := none, dataset_name := none,
    inventory_table := none, buckets := [], pfx := none, replace := false }

def oEmptyStr : LoadOpts :=
  { gcs_project := some "", bq_project := none, dataset_name := none,
    inventory_table := none, buckets := [], pfx := none, replace := false }

/-- Point evaluation of Config.set at the written key. -/
theorem Config.set_same (c : Config) (sec key v : String) :
    (c.set sec key v) sec key = some v := by
  simp [Config.set]

/-- Point evaluation of Config.set away from the written key. -/
theorem Config.set_other (c : Config) (sec key v s k : String)
    (h : ¬(s = sec ∧ k = key)) : (c.set sec key v) s k = c s k := by
  simp [Config.set, h]

/-- C2 counterexample: the load dispatcher does mutate the process-wide
configuration singleton — with a gcs_project override supplied, the run
emits a configSet on the shared configuration and the final singleton
differs, at GCP.GCS_PROJECT, from the freshly parsed file. -/
theorem config_singleton_counterexample :
    Effect.configSet "GCP" "GCS_PROJECT" "newproj"
        ∈ (runLoadCLI fsC gD oNew stEmpty).2 ∧
    (runLoadCLI fsC gD oNew stEmpty).1.config "GCP" "GCS_PROJECT"
        = some "newproj" ∧
    fsC gD.config_file "GCP" "GCS_PROJECT" = some "old" := by
  decide

/-- C2 (amended): the commands do route configuration through the shared
process-wide singleton — load mutates it via get_config().set when an
override is supplied — but because init re-parses the configuration file at
the start of every invocation, the outcome of each command is identical for
identical explicit parameters regardless of the prior state of the singleton. -/
theorem config_isolated_per_invocation (fs : ConfigSource) (g : GroupOpts)
    (o : LoadOpts) (buckets : List String) (pfx : Option String)
    (st st' : PState) :
    runLoadCLI fs g o st = runLoadCLI fs g o st' ∧
    runCatCLI fs g buckets pfx st = runCatCLI fs g buckets pfx st' ∧
    runListenCLI fs g st = runListenCLI fs g st' ∧
    (truthy o.gcs_project = true →
      Effect.configSet "GCP" "GCS_PROJECT" (o.gcs_project.getD "")
        ∈ (runLoadCLI fs g o st).2) := by
  refine ⟨rfl, rfl, rfl, fun h => ?_⟩
  show _ ∈ (initRun fs g st).2 ++ (overrideBlock o (initRun fs g st).1).2
      ++ [Effect.coreLoad o.buckets o.pfx o.replace]
  refine List.mem_append.mpr (Or.inl (List.mem_append.mpr (Or.inr ?_)))
  simp [overrideBlock, h]

theorem config_isolated_per_invocation_witness :
    truthy (some "newproj") = true ∧
    Effect.configSet "GCP" "GCS_PROJECT" "newproj"
      ∈ (runLoadCLI fsC gD oNew stEmpty).2 := by
  refine ⟨by decide, ?_⟩
  exact (config_isolated_per_invocation fsC gD oNew [] none stEmpty
    stEmpty).2.2.2 (by decide)

/-- C8 counterexample: with gcs_project supplied as the empty string — a
non-None value — the code performs no override at all: Python truthiness,
not a None-check, guards each override, so GCP.GCS_PROJECT keeps its parsed
value and no configuration key is written. -/
theorem load_override_nonNone_counterexample :
    oEmptyStr.gcs_project.isSome = true ∧
    (runLoadCLI fsC gD oEmptyStr stEmpty).1.config "GCP" "GCS_PROJECT"
        = some "old" ∧
    (runLoadCLI fsC gD oEmptyStr stEmpty).2.all
        (fun e => !(isConfigSet e)) = true := by
  decide

/-- C8 (amended): each of the four configuration keys is overwritten exactly
when the corresponding CLI option is supplied as a truthy (non-None and
non-empty) string; every other key keeps the value parsed from the
configuration file; and the core call is the final effect of the trace, so
every override precedes the invocation of load_command. -/
theorem load_override_semantics (fs : ConfigSource) (g : GroupOpts)
    (o : LoadOpts) (st : PState) :
    ((runLoadCLI fs g o st).1.config "GCP" "GCS_PROJECT"
        = if truthy o.gcs_project then some (o.gcs_project.getD "")
          else fs g.config_file "GCP" "GCS_PROJECT") ∧
    ((runLoadCLI fs g o st).1.config "BIGQUERY" "JOB_PROJECT"
        = if truthy o.bq_project then some (o.bq_project.getD "")
          else fs g.config_file "BIGQUERY" "JOB_PROJECT") ∧
    ((runLoadCLI fs g o st).1.config "BIGQUERY" "DATASET_NAME"
        = if truthy o.dataset_name then some (o.dataset_name.getD "")
          else fs g.config_file "BIGQUERY" "DATASET_NAME") ∧
    ((runLoadCLI fs g o st).1.config "BIGQUERY" "INVENTORY_TABLE"
        = if truthy o.inventory_table then some (o.inventory_table.getD "")
          else fs g.config_file "BIGQUERY" "INVENTORY_TABLE") ∧
    (∀ s k, ¬(s = "GCP" ∧ k = "GCS_PROJECT") →
      ¬(s = "BIGQUERY" ∧ k = "JOB_PROJECT") →
      ¬(s = "BIGQUERY" ∧ k = "DATASET_NAME") →
      ¬(s = "BIGQUERY" ∧ k = "INVENTORY_TABLE") →
      (runLoadCLI fs g o st).1.config s k = fs g.config_file s k) ∧
    (runLoadCLI fs g o st).2.getLast?
        = some (Effect.coreLoad o.buckets o.pfx o.replace) := by
  have hload : (runLoadCLI fs g o st).1
      = (overrideBlock o { config := fs g.config_file }).1 := rfl
  refine ⟨?_, ?_, ?_, ?_, ?_, ?_⟩
  · rw [hload]
    by_cases h1 : truthy o.gcs_project = true <;>
    by_cases h2 : truthy o.bq_project = true <;>
    by_cases h3 : truthy o.dataset_name = true <;>
    by_cases h4 : truthy o.inventory_table = true <;>
    simp [overrideBlock, h1, h2, h3, h4, Config.set]
  · rw [hload]
    by_cases h1 : truthy o.gcs_project = true <;>
    by_cases h2 : truthy o.bq_project = true <;>
    by_cases h3 : truthy o.dataset_name = true <;>
    by_cases h4 : truthy o.inventory_table = true <;>
    simp [overrideBlock, h1, h2, h3, h4, Config.set]
  · rw [hload]
    by_cases h1 : truthy o.gcs_project = true <;>
    by_cases h2 : truthy o.bq_project = true <;>
    by_cases h3 : truthy o.dataset_name = true <;>
    by_cases h4 : truthy o.inventory_table = true <;>
    simp [overrideBlock, h1, h2, h3, h4, Config.set]
  · rw [hload]
    by_cases h1 : truthy o.gcs_project = true <;>
    by_cases h2 : truthy o.bq_project = true <;>
    by_cases h3 : truthy o.dataset_name = true <;>
    by_cases h4 : truthy o.inventory_table = true <;>
    simp [overrideBlock, h1, h2, h3, h4, Config.set]
  · intro s k hs1 hs2 hs3 hs4
    rw [hload]
    by_cases h1 : truthy o.gcs_project = true <;>
    by_cases h2 : truthy o.bq_project = true <;>
    by_cases h3 : truthy o.dataset_name = true <;>
    by_cases h4 : truthy o.inventory_table = true <;>
    simp [overrideBlock, h1, h2, h3, h4, Config.set, hs1, hs2, hs3, hs4]
  · show ((initRun fs g st).2 ++ (overrideBlock o (initRun fs g st).1).2
        ++ [Effect.coreLoad o.buckets o.pfx o.replace]).getLast? = _
    rw [List.getLast?_concat]

theorem load_override_semantics_witness :
    (runLoadCLI fsC gD oNew stEmpty).1.config "GCP" "GCS_PROJECT"
        = some "newproj" ∧
    (runLoadCLI fsC gD oNew stEmpty).1.config "GCP" "EXTRA"
        = fsC gD.config_file "GCP" "EXTRA" := by
  have h := load_override_semantics fsC gD oNew stEmpty
  exact ⟨h.1.trans (by decide),
    h.2.2.2.2.1 "GCP" "EXTRA" (by decide) (by decide) (by decide) (by decide)⟩

end GcsInventoryLoader
